import Mathlib

/-!
Shallow embedding of the interceptor registry and pipeline runner
(`packages/core/src/interceptor/interceptorManager.ts` together with the
record shapes of `packages/core/src/interceptor/types.ts`).

Modelling choices:
* The JS `Map<string, InterceptorConfig>` is an insertion-ordered
  association list `List (String × InterceptorConfig)`; `Map.set` on an
  existing key replaces the value in place (keeping the original
  position), otherwise appends, exactly as JS `Map` iteration order works.
* A handler (`onInput` / `onOutput`) is a Lean function from the data and
  the context to an `InvokeOutcome`: it may throw (promise rejection or a
  synchronous throw, carrying an error message), return nothing
  (`undefined`, the falsy `!result` branch), or return a result record.
* `Record<string, unknown>` metadata is an association list with the
  observational lookup semantics of object spread `{...a, ...b}`:
  keys of `b` win for shared keys, other keys of `a` persist.
* Optional fields of the TS interfaces are `Option`s; the truthiness test
  `if (result.blocked)` is `blocked.getD false`, and the exact
  `result.message !== undefined` test is `message.isSome`.
* `new Date()` is an opaque `now : Nat` supplied once per `execute*` call.
* `debugLogger.debug` / `debugLogger.error` calls are accumulated in a
  `List Diagnostic`; `debugLogger.error(msg, error)` carries both strings.
* `Array.prototype.sort` with the comparator
  `(b.priority ?? 0) - (a.priority ?? 0)` is (per the ECMAScript spec) a
  stable sort, modelled by a stable insertion sort descending on
  `priority.getD 0`.
* Every `execute*` run additionally returns the trace of handler
  invocations (each invoked interceptor id with the context it received),
  so that claims about invocation order, invocation count and observed
  metadata are statable.
-/

namespace Interceptor

/-- Severity levels of the logging collaborator. -/
inductive Severity where
  | debug
  | error
deriving DecidableEq, Repr

/-- One diagnostic line: `dbg` is `debugLogger.debug(text)`,
`err` is `debugLogger.error(text, error)`. -/
inductive Diagnostic where
  | dbg (text : String)
  | err (text : String) (errMsg : String)
deriving DecidableEq, Repr

/-- Severity of a diagnostic. -/
def Diagnostic.severity : Diagnostic → Severity
  | .dbg _ => .debug
  | .err _ _ => .error

/-- A JS `Record<string, Val>` as an association list (no duplicate keys
when built from object literals). -/
abbrev RecordMap (Val : Type) : Type := List (String × Val)

/-- Property read `m[k]` on a record. -/
def lookupR {Val : Type} : RecordMap Val → String → Option Val
  | [], _ => none
  | p :: ps, k => if p.1 = k then some p.2 else lookupR ps k

/-- Whether a record has the key `k`. -/
def containsKeyR {Val : Type} (m : RecordMap Val) (k : String) : Bool :=
  (lookupR m k).isSome

/-- Object spread `{...a, ...b}`: keys of `a` in order (with `b`'s value
when `b` also has the key), then the keys only `b` has. -/
def mergeRecord {Val : Type} (a b : RecordMap Val) : RecordMap Val :=
  a.map (fun p => match lookupR b p.1 with
    | some v => (p.1, v)
    | none => p)
  ++ b.filter (fun q => !containsKeyR a q.1)

/-- Shape `InputData` of types.ts. -/
structure InputData (Msg : Type) where
  message : Msg
  isRetry : Option Bool
deriving DecidableEq

/-- Shape `OutputData` of types.ts. -/
structure OutputData (Ev : Type) where
  event : Ev
deriving DecidableEq

/-- Shape `InterceptorContext` of types.ts (the timestamp is an opaque clock
value captured once per run). -/
structure InterceptorContext (Val : Type) where
  sessionId : String
  timestamp : Nat
  model : Option String
  metadata : RecordMap Val
deriving DecidableEq

/-- Shape `InputInterceptorResult` of types.ts. -/
structure InputInterceptorResult (Msg Val : Type) where
  message : Option Msg
  blocked : Option Bool
  blockReason : Option String
  metadata : Option (RecordMap Val)

/-- Shape `OutputInterceptorResult` of types.ts. -/
structure OutputInterceptorResult (Ev Val : Type) where
  event : Option Ev
  blocked : Option Bool
  metadata : Option (RecordMap Val)

/-- The three ways an awaited handler invocation can settle: it throws (or
its promise rejects), it returns nothing (`undefined`), or it returns a
result record. -/
inductive InvokeOutcome (ρ : Type) where
  | throws (errMsg : String)
  | voidResult
  | ok (r : ρ)

/-- Function type `InputInterceptor` of types.ts. -/
def InputInterceptorFn (Msg Val : Type) : Type :=
  InputData Msg → InterceptorContext Val →
    InvokeOutcome (InputInterceptorResult Msg Val)

/-- Function type `OutputInterceptor` of types.ts. -/
def OutputInterceptorFn (Ev Val : Type) : Type :=
  OutputData Ev → InterceptorContext Val →
    InvokeOutcome (OutputInterceptorResult Ev Val)

/-- Shape `InterceptorConfig` of types.ts. -/
structure InterceptorConfig (Msg Ev Val : Type) where
  id : String
  name : String
  description : Option String
  onInput : Option (InputInterceptorFn Msg Val)
  onOutput : Option (OutputInterceptorFn Ev Val)
  enabled : Option Bool
  priority : Option Int

/-- The state of an `InterceptorManager`: the insertion-ordered `Map` and
the session id fixed at construction. -/
structure InterceptorManager (Msg Ev Val : Type) where
  interceptors : List (String × InterceptorConfig Msg Ev Val)
  sessionId : String

/-- JS `Map.prototype.set`: replace in place when the key exists
(iteration order keeps the original position), else append. -/
def mapSet {α : Type} (m : List (String × α)) (k : String) (v : α) :
    List (String × α) :=
  if m.any (fun p => p.1 == k) then
    m.map (fun p => if p.1 = k then (k, v) else p)
  else
    m ++ [(k, v)]

/-- JS `Map.prototype.get`. -/
def mapGet {α : Type} (m : List (String × α)) (k : String) : Option α :=
  (m.find? (fun p => p.1 == k)).map (fun p => p.2)

/-- JS `Map.prototype.has`. -/
def mapHas {α : Type} (m : List (String × α)) (k : String) : Bool :=
  m.any (fun p => p.1 == k)

/-- JS `Map.prototype.delete` (the new map contents). -/
def mapDelete {α : Type} (m : List (String × α)) (k : String) :
    List (String × α) :=
  m.filter (fun p => p.1 != k)

/-- JS `Array.from(map.values())`. -/
def mapValues {α : Type} (m : List (String × α)) : List α :=
  m.map (fun p => p.2)

variable {Msg Ev Val : Type}

/-- Operation `register(config)`: insert or replace under `config.id`; returns the
new manager state and the diagnostics emitted. -/
def register (mgr : InterceptorManager Msg Ev Val)
    (config : InterceptorConfig Msg Ev Val) :
    InterceptorManager Msg Ev Val × List Diagnostic :=
  let replacing :=
    if mapHas mgr.interceptors config.id then
      [Diagnostic.dbg
        ("[InterceptorManager] Replacing existing interceptor: " ++ config.id)]
    else []
  ({ mgr with interceptors := mapSet mgr.interceptors config.id config },
    replacing ++
      [Diagnostic.dbg
        ("[InterceptorManager] Registered interceptor: " ++ config.id ++
          " (" ++ config.name ++ ")")])

/-- Operation `unregister(id)`: returns the new state, whether removal occurred,
and the diagnostics emitted. -/
def unregister (mgr : InterceptorManager Msg Ev Val) (id : String) :
    InterceptorManager Msg Ev Val × Bool × List Diagnostic :=
  let present := mapHas mgr.interceptors id
  ({ mgr with interceptors := mapDelete mgr.interceptors id }, present,
    if present then
      [Diagnostic.dbg ("[InterceptorManager] Unregistered interceptor: " ++ id)]
    else [])

/-- Operation `getAll()`: the current registrations in insertion order (a fresh
array in JS; see the heap model below for the aliasing claim). -/
def getAll (mgr : InterceptorManager Msg Ev Val) :
    List (InterceptorConfig Msg Ev Val) :=
  mapValues mgr.interceptors

/-- Operation `get(id)`. -/
def get (mgr : InterceptorManager Msg Ev Val) (id : String) :
    Option (InterceptorConfig Msg Ev Val) :=
  mapGet mgr.interceptors id

/-- Operation `clear()`: returns the new state and the diagnostic emitted. -/
def clear (mgr : InterceptorManager Msg Ev Val) :
    InterceptorManager Msg Ev Val × List Diagnostic :=
  ({ mgr with interceptors := [] },
    [Diagnostic.dbg "[InterceptorManager] Cleared all interceptors"])

/-- The default-applied priority, `priority ?? 0`. -/
def priorityOf (c : InterceptorConfig Msg Ev Val) : Int :=
  c.priority.getD 0

/-- Stable insert for the descending sort: `c` passes over strictly
higher priorities and lands before the first element whose priority is
not higher (so earlier elements of equal priority stay in front of later
ones inserted below, and later ones never overtake). -/
def insertDesc (c : InterceptorConfig Msg Ev Val) :
    List (InterceptorConfig Msg Ev Val) →
      List (InterceptorConfig Msg Ev Val)
  | [] => [c]
  | d :: ds =>
    if priorityOf c < priorityOf d then d :: insertDesc c ds
    else c :: d :: ds

/-- Stable sort descending by `priority ?? 0`, modelling
`.sort((a, b) => (b.priority ?? 0) - (a.priority ?? 0))` (stable per the
ECMAScript spec). -/
def sortByPriorityDesc :
    List (InterceptorConfig Msg Ev Val) →
      List (InterceptorConfig Msg Ev Val)
  | [] => []
  | c :: cs => insertDesc c (sortByPriorityDesc cs)

/-- Selection `getSortedInputInterceptors()`: filter `enabled !== false` and
`onInput !== undefined`, then sort descending by priority. -/
def getSortedInputInterceptors (mgr : InterceptorManager Msg Ev Val) :
    List (InterceptorConfig Msg Ev Val) :=
  sortByPriorityDesc
    ((mapValues mgr.interceptors).filter
      (fun i => i.enabled != some false && i.onInput.isSome))

/-- Selection `getSortedOutputInterceptors()`. -/
def getSortedOutputInterceptors (mgr : InterceptorManager Msg Ev Val) :
    List (InterceptorConfig Msg Ev Val) :=
  sortByPriorityDesc
    ((mapValues mgr.interceptors).filter
      (fun i => i.enabled != some false && i.onOutput.isSome))

/-- Result of `executeInputInterceptors`. -/
structure InputPipelineResult (Msg : Type) where
  message : Msg
  blocked : Bool
  blockReason : Option String
deriving DecidableEq

/-- Result of `executeOutputInterceptors` (note: no block-reason field
exists on this shape). -/
structure OutputPipelineResult (Ev : Type) where
  event : Ev
  blocked : Bool
deriving DecidableEq

/-- One handler invocation as observed during a run: which interceptor
was invoked, the context it was handed, and how the invocation settled. -/
structure InputTraceEntry (Msg Val : Type) where
  id : String
  ctx : InterceptorContext Val
  outcome : InvokeOutcome (InputInterceptorResult Msg Val)

/-- One output-handler invocation as observed during a run. -/
structure OutputTraceEntry (Ev Val : Type) where
  id : String
  ctx : InterceptorContext Val
  outcome : InvokeOutcome (OutputInterceptorResult Ev Val)

/-- What one input run produces: the pipeline result, the diagnostics
emitted inside the run, and the invocation trace. -/
structure InputRunOutput (Msg Val : Type) where
  result : InputPipelineResult Msg
  log : List Diagnostic
  trace : List (InputTraceEntry Msg Val)

/-- What one output run produces. -/
structure OutputRunOutput (Ev Val : Type) where
  result : OutputPipelineResult Ev
  log : List Diagnostic
  trace : List (OutputTraceEntry Ev Val)

/-- The `for (const interceptor of enabledInterceptors)` loop of
`executeInputInterceptors`, threading the running message and metadata. -/
def inputLoop (sessionId : String) (now : Nat) (model : Option String)
    (isRetry : Option Bool) :
    List (InterceptorConfig Msg Ev Val) → Msg → RecordMap Val →
      InputRunOutput Msg Val
  | [], cur, _ => ⟨⟨cur, false, none⟩, [], []⟩
  | c :: rest, cur, md =>
    match c.onInput with
    | none => inputLoop sessionId now model isRetry rest cur md
    | some h =>
      let ctx : InterceptorContext Val := ⟨sessionId, now, model, md⟩
      let execDbg := Diagnostic.dbg
        ("[InterceptorManager] Executing input interceptor: " ++ c.id)
      match h ⟨cur, isRetry⟩ ctx with
      | .throws e =>
        let next := inputLoop sessionId now model isRetry rest cur md
        ⟨next.result,
          execDbg ::
            Diagnostic.err
              ("[InterceptorManager] Error in input interceptor " ++ c.id ++ ":")
              e :: next.log,
          ⟨c.id, ctx, .throws e⟩ :: next.trace⟩
      | .voidResult =>
        let next := inputLoop sessionId now model isRetry rest cur md
        ⟨next.result, execDbg :: next.log, ⟨c.id, ctx, .voidResult⟩ :: next.trace⟩
      | .ok r =>
        if r.blocked.getD false then
          ⟨⟨cur, true, r.blockReason⟩,
            [execDbg,
              Diagnostic.dbg
                ("[InterceptorManager] Input blocked by interceptor: " ++ c.id)],
            [⟨c.id, ctx, .ok r⟩]⟩
        else
          let cur2 := r.message.getD cur
          let modDbg :=
            if r.message.isSome then
              [Diagnostic.dbg
                ("[InterceptorManager] Input modified by interceptor: " ++ c.id)]
            else []
          let md2 := match r.metadata with
            | some m2 => mergeRecord md m2
            | none => md
          let next := inputLoop sessionId now model isRetry rest cur2 md2
          ⟨next.result, execDbg :: modDbg ++ next.log,
            ⟨c.id, ctx, .ok r⟩ :: next.trace⟩

/-- Entry point `executeInputInterceptors(message, model, isRetry)` at clock `now`. -/
def executeInputInterceptors (mgr : InterceptorManager Msg Ev Val)
    (message : Msg) (model : Option String) (isRetry : Option Bool)
    (now : Nat) : InputRunOutput Msg Val :=
  let enabledInterceptors := getSortedInputInterceptors mgr
  if enabledInterceptors.length == 0 then
    ⟨⟨message, false, none⟩, [], []⟩
  else
    inputLoop mgr.sessionId now model isRetry enabledInterceptors message []

/-- The loop of `executeOutputInterceptors`. -/
def outputLoop (sessionId : String) (now : Nat) (model : Option String) :
    List (InterceptorConfig Msg Ev Val) → Ev → RecordMap Val →
      OutputRunOutput Ev Val
  | [], cur, _ => ⟨⟨cur, false⟩, [], []⟩
  | c :: rest, cur, md =>
    match c.onOutput with
    | none => outputLoop sessionId now model rest cur md
    | some h =>
      let ctx : InterceptorContext Val := ⟨sessionId, now, model, md⟩
      let execDbg := Diagnostic.dbg
        ("[InterceptorManager] Executing output interceptor: " ++ c.id)
      match h ⟨cur⟩ ctx with
      | .throws e =>
        let next := outputLoop sessionId now model rest cur md
        ⟨next.result,
          execDbg ::
            Diagnostic.err
              ("[InterceptorManager] Error in output interceptor " ++ c.id ++ ":")
              e :: next.log,
          ⟨c.id, ctx, .throws e⟩ :: next.trace⟩
      | .voidResult =>
        let next := outputLoop sessionId now model rest cur md
        ⟨next.result, execDbg :: next.log, ⟨c.id, ctx, .voidResult⟩ :: next.trace⟩
      | .ok r =>
        if r.blocked.getD false then
          ⟨⟨cur, true⟩,
            [execDbg,
              Diagnostic.dbg
                ("[InterceptorManager] Output blocked by interceptor: " ++ c.id)],
            [⟨c.id, ctx, .ok r⟩]⟩
        else
          let cur2 := r.event.getD cur
          let modDbg :=
            if r.event.isSome then
              [Diagnostic.dbg
                ("[InterceptorManager] Output modified by interceptor: " ++ c.id)]
            else []
          let md2 := match r.metadata with
            | some m2 => mergeRecord md m2
            | none => md
          let next := outputLoop sessionId now model rest cur2 md2
          ⟨next.result, execDbg :: modDbg ++ next.log,
            ⟨c.id, ctx, .ok r⟩ :: next.trace⟩

/-- Entry point `executeOutputInterceptors(event, model)` at clock `now`. -/
def executeOutputInterceptors (mgr : InterceptorManager Msg Ev Val)
    (event : Ev) (model : Option String) (now : Nat) :
    OutputRunOutput Ev Val :=
  let enabledInterceptors := getSortedOutputInterceptors mgr
  if enabledInterceptors.length == 0 then
    ⟨⟨event, false⟩, [], []⟩
  else
    outputLoop mgr.sessionId now model enabledInterceptors event []

/-!
Registry-effects model for the snapshot claim: the source loop iterates
over the array `enabledInterceptors` built before the first invocation,
so a handler that calls `register` / `unregister` / `clear` mid-run
mutates `this.interceptors` without affecting the iteration. Here `fx id`
is the registry mutation the handler with that id performs during its
invocation; the loop threads the mutated registry but, like the source,
never reads it.
-/

/-- The input loop with registry mutation threaded through handler
invocations (the handler with id `i` applies `fx i` to the registry when
invoked); the loop itself only iterates the snapshot list. -/
def inputLoopFx (sessionId : String) (now : Nat) (model : Option String)
    (isRetry : Option Bool)
    (fx : String → List (String × InterceptorConfig Msg Ev Val) →
      List (String × InterceptorConfig Msg Ev Val)) :
    List (InterceptorConfig Msg Ev Val) → Msg → RecordMap Val →
      List (String × InterceptorConfig Msg Ev Val) →
      InputRunOutput Msg Val × List (String × InterceptorConfig Msg Ev Val)
  | [], cur, _, reg => (⟨⟨cur, false, none⟩, [], []⟩, reg)
  | c :: rest, cur, md, reg =>
    match c.onInput with
    | none => inputLoopFx sessionId now model isRetry fx rest cur md reg
    | some h =>
      let ctx : InterceptorContext Val := ⟨sessionId, now, model, md⟩
      let execDbg := Diagnostic.dbg
        ("[InterceptorManager] Executing input interceptor: " ++ c.id)
      let reg2 := fx c.id reg
      match h ⟨cur, isRetry⟩ ctx with
      | .throws e =>
        let next := inputLoopFx sessionId now model isRetry fx rest cur md reg2
        (⟨next.1.result,
          execDbg ::
            Diagnostic.err
              ("[InterceptorManager] Error in input interceptor " ++ c.id ++ ":")
              e :: next.1.log,
          ⟨c.id, ctx, .throws e⟩ :: next.1.trace⟩, next.2)
      | .voidResult =>
        let next := inputLoopFx sessionId now model isRetry fx rest cur md reg2
        (⟨next.1.result, execDbg :: next.1.log,
          ⟨c.id, ctx, .voidResult⟩ :: next.1.trace⟩, next.2)
      | .ok r =>
        if r.blocked.getD false then
          (⟨⟨cur, true, r.blockReason⟩,
            [execDbg,
              Diagnostic.dbg
                ("[InterceptorManager] Input blocked by interceptor: " ++ c.id)],
            [⟨c.id, ctx, .ok r⟩]⟩, reg2)
        else
          let cur2 := r.message.getD cur
          let modDbg :=
            if r.message.isSome then
              [Diagnostic.dbg
                ("[InterceptorManager] Input modified by interceptor: " ++ c.id)]
            else []
          let md2 := match r.metadata with
            | some m2 => mergeRecord md m2
            | none => md
          let next := inputLoopFx sessionId now model isRetry fx rest cur2 md2 reg2
          (⟨next.1.result, execDbg :: modDbg ++ next.1.log,
            ⟨c.id, ctx, .ok r⟩ :: next.1.trace⟩, next.2)

/-- Entry point `executeInputInterceptors` in the registry-effects model: the
snapshot is selected from the manager once, before any invocation, and
the possibly-mutated registry is returned alongside the run output. -/
def executeInputInterceptorsFx (mgr : InterceptorManager Msg Ev Val)
    (message : Msg) (model : Option String) (isRetry : Option Bool)
    (now : Nat)
    (fx : String → List (String × InterceptorConfig Msg Ev Val) →
      List (String × InterceptorConfig Msg Ev Val)) :
    InputRunOutput Msg Val × List (String × InterceptorConfig Msg Ev Val) :=
  let enabledInterceptors := getSortedInputInterceptors mgr
  if enabledInterceptors.length == 0 then
    (⟨⟨message, false, none⟩, [], []⟩, mgr.interceptors)
  else
    inputLoopFx mgr.sessionId now model isRetry fx enabledInterceptors
      message [] mgr.interceptors

/-- The output loop with registry mutation threaded through handler
invocations, mirroring `inputLoopFx`: the handler with id `i` applies
`fx i` to the registry when invoked; the loop itself only iterates the
snapshot list and never reads the registry. -/
def outputLoopFx (sessionId : String) (now : Nat) (model : Option String)
    (fx : String → List (String × InterceptorConfig Msg Ev Val) →
      List (String × InterceptorConfig Msg Ev Val)) :
    List (InterceptorConfig Msg Ev Val) → Ev → RecordMap Val →
      List (String × InterceptorConfig Msg Ev Val) →
      OutputRunOutput Ev Val × List (String × InterceptorConfig Msg Ev Val)
  | [], cur, _, reg => (⟨⟨cur, false⟩, [], []⟩, reg)
  | c :: rest, cur, md, reg =>
    match c.onOutput with
    | none => outputLoopFx sessionId now model fx rest cur md reg
    | some h =>
      let ctx : InterceptorContext Val := ⟨sessionId, now, model, md⟩
      let execDbg := Diagnostic.dbg
        ("[InterceptorManager] Executing output interceptor: " ++ c.id)
      let reg2 := fx c.id reg
      match h ⟨cur⟩ ctx with
      | .throws e =>
        let next := outputLoopFx sessionId now model fx rest cur md reg2
        (⟨next.1.result,
          execDbg ::
            Diagnostic.err
              ("[InterceptorManager] Error in output interceptor " ++ c.id ++ ":")
              e :: next.1.log,
          ⟨c.id, ctx, .throws e⟩ :: next.1.trace⟩, next.2)
      | .voidResult =>
        let next := outputLoopFx sessionId now model fx rest cur md reg2
        (⟨next.1.result, execDbg :: next.1.log,
          ⟨c.id, ctx, .voidResult⟩ :: next.1.trace⟩, next.2)
      | .ok r =>
        if r.blocked.getD false then
          (⟨⟨cur, true⟩,
            [execDbg,
              Diagnostic.dbg
                ("[InterceptorManager] Output blocked by interceptor: " ++ c.id)],
            [⟨c.id, ctx, .ok r⟩]⟩, reg2)
        else
          let cur2 := r.event.getD cur
          let modDbg :=
            if r.event.isSome then
              [Diagnostic.dbg
                ("[InterceptorManager] Output modified by interceptor: " ++ c.id)]
            else []
          let md2 := match r.metadata with
            | some m2 => mergeRecord md m2
            | none => md
          let next := outputLoopFx sessionId now model fx rest cur2 md2 reg2
          (⟨next.1.result, execDbg :: modDbg ++ next.1.log,
            ⟨c.id, ctx, .ok r⟩ :: next.1.trace⟩, next.2)

/-- Entry point `executeOutputInterceptors` in the registry-effects
model: the snapshot is selected from the manager once, before any
invocation, and the possibly-mutated registry is returned alongside the
run output. -/
def executeOutputInterceptorsFx (mgr : InterceptorManager Msg Ev Val)
    (event : Ev) (model : Option String) (now : Nat)
    (fx : String → List (String × InterceptorConfig Msg Ev Val) →
      List (String × InterceptorConfig Msg Ev Val)) :
    OutputRunOutput Ev Val × List (String × InterceptorConfig Msg Ev Val) :=
  let enabledInterceptors := getSortedOutputInterceptors mgr
  if enabledInterceptors.length == 0 then
    (⟨⟨event, false⟩, [], []⟩, mgr.interceptors)
  else
    outputLoopFx mgr.sessionId now model fx enabledInterceptors
      event [] mgr.interceptors

/-!
Heap model for the `getAll` aliasing claim: `Array.from(values())`
allocates a fresh JS array. We model a heap of allocated arrays so that
"mutating the returned sequence" is a real operation, and show it cannot
reach the registry.
-/

/-- A heap of allocated JS arrays of configs, addressed by allocation
index. -/
structure JSHeap (Msg Ev Val : Type) where
  arrays : List (List (InterceptorConfig Msg Ev Val))

/-- Allocate a fresh array holding `v`; returns its reference. -/
def allocArr (h : JSHeap Msg Ev Val)
    (v : List (InterceptorConfig Msg Ev Val)) : Nat × JSHeap Msg Ev Val :=
  (h.arrays.length, ⟨h.arrays ++ [v]⟩)

/-- Read the array at reference `r`. -/
def readArr (h : JSHeap Msg Ev Val) (r : Nat) :
    List (InterceptorConfig Msg Ev Val) :=
  (h.arrays.get? r).getD []

/-- Overwrite the array at reference `r` (adding, removing or reordering
elements of the returned sequence is some such overwrite). -/
def writeArr (h : JSHeap Msg Ev Val) (r : Nat)
    (v : List (InterceptorConfig Msg Ev Val)) : JSHeap Msg Ev Val :=
  ⟨h.arrays.set r v⟩

/-- Operation `getAll()` in the heap model: allocate a fresh array holding the
current registrations; the manager is untouched and keeps no reference
to the allocation. -/
def getAllOp (mgr : InterceptorManager Msg Ev Val)
    (h : JSHeap Msg Ev Val) :
    Nat × JSHeap Msg Ev Val × InterceptorManager Msg Ev Val :=
  let a := allocArr h (mapValues mgr.interceptors)
  (a.1, a.2, mgr)

/-!
Specification-side characterization of metadata threading, following the
spec's words: the metadata bag "starts empty and is merged forward (not
replaced) as handlers return metadata; each handler observes the
cumulative union of all prior handlers' contributions for that
invocation". These two definitions are written from the spec and are
compared against the source-derived loops in the metadata theorem.
-/

/-- The contribution of one settled handler invocation to the running
metadata (spec: a handler that returns metadata has it merged forward;
a throwing or void invocation contributes nothing). -/
def specMetadataStep (md : RecordMap Val)
    (o : InvokeOutcome (InputInterceptorResult Msg Val)) : RecordMap Val :=
  match o with
  | .ok r =>
    if r.blocked.getD false then md
    else
      match r.metadata with
      | some m2 => mergeRecord md m2
      | none => md
  | _ => md

/-- Output-side contribution of one settled handler invocation. -/
def specMetadataStepOut (md : RecordMap Val)
    (o : InvokeOutcome (OutputInterceptorResult Ev Val)) : RecordMap Val :=
  match o with
  | .ok r =>
    if r.blocked.getD false then md
    else
      match r.metadata with
      | some m2 => mergeRecord md m2
      | none => md
  | _ => md

/-- The metadata each successive handler should observe, starting from
`md`: the i-th element is the cumulative union of the contributions of
the first i outcomes. -/
def specObservedMetadata (md : RecordMap Val) :
    List (InvokeOutcome (InputInterceptorResult Msg Val)) →
      List (RecordMap Val)
  | [] => []
  | o :: os => md :: specObservedMetadata (specMetadataStep md o) os

/-- Output-side observed-metadata sequence. -/
def specObservedMetadataOut (md : RecordMap Val) :
    List (InvokeOutcome (OutputInterceptorResult Ev Val)) →
      List (RecordMap Val)
  | [] => []
  | o :: os => md :: specObservedMetadataOut (specMetadataStepOut md o) os

/-!
Concrete instances used by the spec's concrete scenario and by the
witnesses: message, event and metadata values are all strings.
-/

/-- Handler A of the spec's concrete scenario:
`onInput` returns `{message: "A:" + input.message}`. -/
def exHandlerA : InputInterceptorFn String String :=
  fun input _ => .ok ⟨some ("A:" ++ input.message), none, none, none⟩

/-- Handler B of the spec's concrete scenario:
`onInput` returns `{message: "B:" + input.message}`. -/
def exHandlerB : InputInterceptorFn String String :=
  fun input _ => .ok ⟨some ("B:" ++ input.message), none, none, none⟩

/-- Registration of handler A at priority 10. -/
def exConfigA : InterceptorConfig String String String :=
  ⟨"a", "A", none, some exHandlerA, none, none, some 10⟩

/-- Registration of handler B at priority 1. -/
def exConfigB : InterceptorConfig String String String :=
  ⟨"b", "B", none, some exHandlerB, none, none, some 1⟩

/-- A fresh manager with session id "s". -/
def exManager0 : InterceptorManager String String String := ⟨[], "s"⟩

/-- The manager of the concrete scenario: A and B registered. -/
def exManagerAB : InterceptorManager String String String :=
  (register (register exManager0 exConfigA).1 exConfigB).1

/-- An input handler that blocks with a reason and also attempts a
message replacement (which the pipeline must discard). -/
def exBlockInputFn : InputInterceptorFn String String :=
  fun _ _ => .ok ⟨some "replaced", some true, some "nope", none⟩

/-- The result record returned by `exBlockInputFn`. -/
def exBlockInputRes : InputInterceptorResult String String :=
  ⟨some "replaced", some true, some "nope", none⟩

/-- Registration of the blocking input handler. -/
def exBlockConfig : InterceptorConfig String String String :=
  ⟨"blk", "Blocker", none, some exBlockInputFn, none, none, some 5⟩

/-- An output handler that blocks and also attempts an event
replacement. -/
def exBlockOutputFn : OutputInterceptorFn String String :=
  fun _ _ => .ok ⟨some "replacedEv", some true, none⟩

/-- The result record returned by `exBlockOutputFn`. -/
def exBlockOutputRes : OutputInterceptorResult String String :=
  ⟨some "replacedEv", some true, none⟩

/-- Registration of the blocking output handler. -/
def exBlockOutConfig : InterceptorConfig String String String :=
  ⟨"oblk", "OutBlocker", none, none, some exBlockOutputFn, none, some 5⟩

/-- An input handler that throws. -/
def exThrowInputFn : InputInterceptorFn String String :=
  fun _ _ => .throws "Test error"

/-- Registration of the throwing input handler. -/
def exThrowConfig : InterceptorConfig String String String :=
  ⟨"thr", "Thrower", none, some exThrowInputFn, none, none, some 7⟩

/-- An output handler that throws. -/
def exThrowOutputFn : OutputInterceptorFn String String :=
  fun _ _ => .throws "Test error"

/-- Registration of the throwing output handler. -/
def exThrowOutConfig : InterceptorConfig String String String :=
  ⟨"othr", "OutThrower", none, none, some exThrowOutputFn, none, some 7⟩

/-- The manager holding the blocking input handler and, at lower
priority, handler B. -/
def exManagerBlock : InterceptorManager String String String :=
  (register (register exManager0 exBlockConfig).1 exConfigB).1

/-- A registration that is disabled (`enabled: false`). -/
def exDisabledConfig : InterceptorConfig String String String :=
  ⟨"dis", "Disabled", none, some exHandlerA, none, some false, none⟩

/-- A manager whose only registration is disabled. -/
def exManagerDisabled : InterceptorManager String String String :=
  ⟨[("dis", exDisabledConfig)], "s"⟩

/-- A manager whose only registration defines no input handler. -/
def exManagerOutOnly : InterceptorManager String String String :=
  ⟨[("oblk", exBlockOutConfig)], "s"⟩

/-- A manager whose only registration defines no output handler. -/
def exManagerInOnly : InterceptorManager String String String :=
  ⟨[("a", exConfigA)], "s"⟩

/-!
Helper lemmas shared by the claim theorems.
-/

theorem mapGet_cons_of_ne {α : Type} (p : String × α)
    (m : List (String × α)) (k : String) (h : ¬ p.1 = k) :
    mapGet (p :: m) k = mapGet m k := by
  unfold mapGet
  rw [List.find?_cons_of_neg _ (by simp [h])]

theorem mapGet_replaced {α : Type} (k : String) (v : α) :
    ∀ (m : List (String × α)), m.any (fun p => p.1 == k) = true →
      mapGet (m.map (fun p => if p.1 = k then (k, v) else p)) k = some v := by
  intro m
  induction m with
  | nil => intro h; simp at h
  | cons p ps ih =>
    intro h
    by_cases hp : p.1 = k
    · simp only [List.map_cons, hp, if_true]
      unfold mapGet
      rw [List.find?_cons_of_pos _ (by simp)]
      rfl
    · have hps : ps.any (fun p => p.1 == k) = true := by
        simp only [List.any_cons, Bool.or_eq_true, beq_iff_eq] at h
        rcases h with h | h
        · exact absurd h hp
        · exact h
      rw [List.map_cons, if_neg hp, mapGet_cons_of_ne _ _ _ hp]
      exact ih hps

theorem mapGet_appended {α : Type} (k : String) (v : α) :
    ∀ (m : List (String × α)), m.any (fun p => p.1 == k) = false →
      mapGet (m ++ [(k, v)]) k = some v := by
  intro m
  induction m with
  | nil =>
    intro _
    unfold mapGet
    rw [List.nil_append, List.find?_cons_of_pos _ (by simp)]
    rfl
  | cons p ps ih =>
    intro h
    simp only [List.any_cons, Bool.or_eq_false_iff, beq_eq_false_iff_ne] at h
    rw [List.cons_append, mapGet_cons_of_ne _ _ _ h.1]
    exact ih (by simp [h.2])

theorem mapGet_mapSet_self {α : Type} (m : List (String × α)) (k : String)
    (v : α) : mapGet (mapSet m k v) k = some v := by
  unfold mapSet
  by_cases hc : m.any (fun p => p.1 == k)
  · rw [if_pos hc]
    exact mapGet_replaced k v m hc
  · rw [if_neg hc]
    exact mapGet_appended k v m (Bool.not_eq_true _ ▸ hc)

theorem set_append_singleton_length {α : Type} (l : List α) (x v : α) :
    (l ++ [x]).set l.length v = l ++ [v] := by
  induction l with
  | nil => rfl
  | cons a as ih => simp [List.set, ih]

theorem get?_append_singleton_length {α : Type} (l : List α) (x : α) :
    (l ++ [x]).get? l.length = some x := by
  induction l with
  | nil => rfl
  | cons a as ih => simp [ih]

theorem lookupR_append {Val : Type} (l1 l2 : RecordMap Val) (k : String) :
    lookupR (l1 ++ l2) k =
      (match lookupR l1 k with
       | some v => some v
       | none => lookupR l2 k) := by
  induction l1 with
  | nil => simp [lookupR]
  | cons p ps ih =>
    by_cases hp : p.1 = k
    · simp [lookupR, hp]
    · simp [lookupR, hp, ih]

theorem lookupR_map_override {Val : Type} (b : RecordMap Val) (k : String) :
    ∀ (a : RecordMap Val),
      lookupR (a.map (fun p => match lookupR b p.1 with
        | some v => (p.1, v)
        | none => p)) k =
      (match lookupR a k with
       | some w =>
         (match lookupR b k with
          | some v => some v
          | none => some w)
       | none => none) := by
  intro a
  induction a with
  | nil => simp [lookupR]
  | cons p ps ih =>
    by_cases hp : p.1 = k
    · subst hp
      cases hb : lookupR b p.1 with
      | some v => simp [lookupR, hb]
      | none => simp [lookupR, hb]
    · cases hb : lookupR b p.1 with
      | some v => simp [lookupR, hb, hp, ih]
      | none => simp [lookupR, hb, hp, ih]

theorem lookupR_filter_fresh {Val : Type} (a : RecordMap Val) (k : String) :
    ∀ (b : RecordMap Val),
      lookupR (b.filter (fun q => !containsKeyR a q.1)) k =
      (if containsKeyR a k then none else lookupR b k) := by
  intro b
  induction b with
  | nil => simp [lookupR]
  | cons q qs ih =>
    by_cases ha : containsKeyR a q.1
    · simp only [List.filter_cons, ha, Bool.not_true, Bool.false_eq_true,
        if_false]
      rw [ih]
      by_cases hq : q.1 = k
      · subst hq
        simp [lookupR, ha]
      · simp [lookupR, hq]
    · rw [Bool.not_eq_true] at ha
      simp only [List.filter_cons, ha, Bool.not_false, if_pos rfl]
      by_cases hq : q.1 = k
      · subst hq
        simp [lookupR, ha]
      · simp [lookupR, hq, ih]

theorem lookupR_mergeRecord {Val : Type} (a b : RecordMap Val) (k : String) :
    lookupR (mergeRecord a b) k =
      (match lookupR b k with
       | some v => some v
       | none => lookupR a k) := by
  unfold mergeRecord
  rw [lookupR_append, lookupR_map_override]
  cases ha : lookupR a k with
  | some w =>
    cases hb : lookupR b k with
    | some v => simp
    | none => simp [ha]
  | none =>
    have hck : containsKeyR a k = false := by
      simp [containsKeyR, ha]
    rw [lookupR_filter_fresh, hck]
    cases hb : lookupR b k with
    | some v => simp
    | none => simp [ha]

theorem mem_insertDesc {c x : InterceptorConfig Msg Ev Val} :
    ∀ {l : List (InterceptorConfig Msg Ev Val)},
      x ∈ insertDesc c l ↔ x = c ∨ x ∈ l := by
  intro l
  induction l with
  | nil => simp [insertDesc]
  | cons d ds ih =>
    by_cases hlt : priorityOf c < priorityOf d
    · simp only [insertDesc, hlt, if_true, List.mem_cons, ih]
      tauto
    · simp only [insertDesc, hlt, if_false, List.mem_cons]

theorem mem_sortByPriorityDesc {x : InterceptorConfig Msg Ev Val} :
    ∀ {l : List (InterceptorConfig Msg Ev Val)},
      x ∈ sortByPriorityDesc l ↔ x ∈ l := by
  intro l
  induction l with
  | nil => simp [sortByPriorityDesc]
  | cons c cs ih =>
    simp only [sortByPriorityDesc, mem_insertDesc, ih, List.mem_cons]

theorem insertDesc_pairwise (c : InterceptorConfig Msg Ev Val) :
    ∀ (l : List (InterceptorConfig Msg Ev Val)),
      l.Pairwise (fun a b => priorityOf b ≤ priorityOf a) →
      (insertDesc c l).Pairwise (fun a b => priorityOf b ≤ priorityOf a) := by
  intro l
  induction l with
  | nil => intro _; simp [insertDesc]
  | cons d ds ih =>
    intro h
    rw [List.pairwise_cons] at h
    by_cases hlt : priorityOf c < priorityOf d
    · simp only [insertDesc, hlt, if_true]
      rw [List.pairwise_cons]
      refine ⟨?_, ih h.2⟩
      intro x hx
      rcases mem_insertDesc.mp hx with hx | hx
      · exact hx ▸ le_of_lt hlt
      · exact h.1 x hx
    · simp only [insertDesc, hlt, if_false]
      rw [List.pairwise_cons]
      refine ⟨?_, List.pairwise_cons.mpr h⟩
      intro x hx
      rcases List.mem_cons.mp hx with hx | hx
      · exact hx ▸ le_of_not_lt hlt
      · exact le_trans (h.1 x hx) (le_of_not_lt hlt)

theorem sortByPriorityDesc_pairwise :
    ∀ (l : List (InterceptorConfig Msg Ev Val)),
      (sortByPriorityDesc l).Pairwise
        (fun a b => priorityOf b ≤ priorityOf a) := by
  intro l
  induction l with
  | nil => simp [sortByPriorityDesc]
  | cons c cs ih => exact insertDesc_pairwise c _ ih

theorem insertDesc_filter_eq (c : InterceptorConfig Msg Ev Val) (p : Int)
    (hc : priorityOf c = p) :
    ∀ (l : List (InterceptorConfig Msg Ev Val)),
      (insertDesc c l).filter (fun d => priorityOf d == p) =
        c :: l.filter (fun d => priorityOf d == p) := by
  subst hc
  intro l
  induction l with
  | nil => simp [insertDesc, List.filter_cons]
  | cons d ds ih =>
    by_cases hlt : priorityOf c < priorityOf d
    · have hd : (priorityOf d == priorityOf c) = false := by
        simp only [beq_eq_false_iff_ne, ne_eq]
        intro hdp
        rw [hdp] at hlt
        exact lt_irrefl _ hlt
      simp only [insertDesc, hlt, if_true, List.filter_cons, hd,
        Bool.false_eq_true, if_false, ih]
    · simp [insertDesc, hlt, List.filter_cons]

theorem insertDesc_filter_ne (c : InterceptorConfig Msg Ev Val) (p : Int)
    (hc : ¬ priorityOf c = p) :
    ∀ (l : List (InterceptorConfig Msg Ev Val)),
      (insertDesc c l).filter (fun d => priorityOf d == p) =
        l.filter (fun d => priorityOf d == p) := by
  intro l
  have hcb : (priorityOf c == p) = false := beq_eq_false_iff_ne.mpr hc
  induction l with
  | nil => simp [insertDesc, List.filter_cons, hcb]
  | cons d ds ih =>
    by_cases hlt : priorityOf c < priorityOf d
    · simp only [insertDesc, hlt, if_true, List.filter_cons, ih]
    · simp only [insertDesc, hlt, if_false, List.filter_cons, hcb,
        Bool.false_eq_true, if_false]

theorem sortByPriorityDesc_stable (p : Int) :
    ∀ (l : List (InterceptorConfig Msg Ev Val)),
      (sortByPriorityDesc l).filter (fun d => priorityOf d == p) =
        l.filter (fun d => priorityOf d == p) := by
  intro l
  induction l with
  | nil => simp [sortByPriorityDesc]
  | cons c cs ih =>
    by_cases hc : priorityOf c = p
    · show (insertDesc c (sortByPriorityDesc cs)).filter _ = _
      rw [insertDesc_filter_eq c p hc, ih, List.filter_cons]
      simp [hc]
    · show (insertDesc c (sortByPriorityDesc cs)).filter _ = _
      rw [insertDesc_filter_ne c p hc, ih, List.filter_cons]
      simp [beq_eq_false_iff_ne.mpr hc]

theorem inputLoop_reason_blocked
    (sid : String) (now : Nat) (model : Option String)
    (isRetry : Option Bool) (l : List (InterceptorConfig Msg Ev Val)) :
    ∀ (cur : Msg) (md : RecordMap Val),
      (inputLoop sid now model isRetry l cur md).result.blockReason.isSome
          = true →
        (inputLoop sid now model isRetry l cur md).result.blocked = true := by
  induction l with
  | nil => intro cur md h; simp [inputLoop] at h
  | cons c rest ih =>
    intro cur md h
    simp only [inputLoop] at h ⊢
    cases hOn : c.onInput with
    | none =>
      simp only [hOn] at h ⊢
      exact ih cur md h
    | some f =>
      simp only [hOn] at h ⊢
      cases hOut : f ⟨cur, isRetry⟩ ⟨sid, now, model, md⟩ with
      | throws e =>
        simp only [hOut] at h ⊢
        exact ih cur md h
      | voidResult =>
        simp only [hOut] at h ⊢
        exact ih cur md h
      | ok r =>
        simp only [hOut] at h ⊢
        by_cases hb : r.blocked.getD false
        · simp [hb]
        · simp only [hb, if_false] at h ⊢
          exact ih _ _ h

theorem getSortedInput_onInput (mgr : InterceptorManager Msg Ev Val) :
    ∀ c ∈ getSortedInputInterceptors mgr, c.onInput.isSome = true := by
  intro c hc
  unfold getSortedInputInterceptors at hc
  rw [mem_sortByPriorityDesc] at hc
  have h := (List.mem_filter.mp hc).2
  simp only [Bool.and_eq_true] at h
  exact h.2

theorem getSortedOutput_onOutput (mgr : InterceptorManager Msg Ev Val) :
    ∀ c ∈ getSortedOutputInterceptors mgr, c.onOutput.isSome = true := by
  intro c hc
  unfold getSortedOutputInterceptors at hc
  rw [mem_sortByPriorityDesc] at hc
  have h := (List.mem_filter.mp hc).2
  simp only [Bool.and_eq_true] at h
  exact h.2

theorem inputLoop_trace_take (sid : String) (now : Nat)
    (model : Option String) (isRetry : Option Bool) :
    ∀ (l : List (InterceptorConfig Msg Ev Val)),
      (∀ c ∈ l, c.onInput.isSome = true) →
      ∀ (cur : Msg) (md : RecordMap Val),
        ∃ n, (inputLoop sid now model isRetry l cur md).trace.map
            (fun e => e.id) =
          (l.map (fun c => c.id)).take n := by
  intro l
  induction l with
  | nil =>
    intro _ cur md
    exact ⟨0, by simp [inputLoop]⟩
  | cons c rest ih =>
    intro hl cur md
    have hc : c.onInput.isSome = true := hl c (List.mem_cons_self c rest)
    have hrest : ∀ x ∈ rest, x.onInput.isSome = true :=
      fun x hx => hl x (List.mem_cons_of_mem c hx)
    simp only [inputLoop]
    cases hOn : c.onInput with
    | none =>
      rw [hOn] at hc
      simp at hc
    | some f =>
      simp only [hOn]
      cases hOut : f ⟨cur, isRetry⟩ ⟨sid, now, model, md⟩ with
      | throws e =>
        obtain ⟨n, hn⟩ := ih hrest cur md
        exact ⟨n + 1, by simp [hn]⟩
      | voidResult =>
        obtain ⟨n, hn⟩ := ih hrest cur md
        exact ⟨n + 1, by simp [hn]⟩
      | ok r =>
        by_cases hb : r.blocked.getD false
        · exact ⟨1, by simp [hb]⟩
        · obtain ⟨n, hn⟩ :=
            ih hrest (r.message.getD cur)
              (match r.metadata with
                | some m2 => mergeRecord md m2
                | none => md)
          exact ⟨n + 1, by simp [hb, hn]⟩

theorem outputLoop_trace_take (sid : String) (now : Nat)
    (model : Option String) :
    ∀ (l : List (InterceptorConfig Msg Ev Val)),
      (∀ c ∈ l, c.onOutput.isSome = true) →
      ∀ (cur : Ev) (md : RecordMap Val),
        ∃ n, (outputLoop sid now model l cur md).trace.map
            (fun e => e.id) =
          (l.map (fun c => c.id)).take n := by
  intro l
  induction l with
  | nil =>
    intro _ cur md
    exact ⟨0, by simp [outputLoop]⟩
  | cons c rest ih =>
    intro hl cur md
    have hc : c.onOutput.isSome = true := hl c (List.mem_cons_self c rest)
    have hrest : ∀ x ∈ rest, x.onOutput.isSome = true :=
      fun x hx => hl x (List.mem_cons_of_mem c hx)
    simp only [outputLoop]
    cases hOn : c.onOutput with
    | none =>
      rw [hOn] at hc
      simp at hc
    | some f =>
      simp only [hOn]
      cases hOut : f ⟨cur⟩ ⟨sid, now, model, md⟩ with
      | throws e =>
        obtain ⟨n, hn⟩ := ih hrest cur md
        exact ⟨n + 1, by simp [hn]⟩
      | voidResult =>
        obtain ⟨n, hn⟩ := ih hrest cur md
        exact ⟨n + 1, by simp [hn]⟩
      | ok r =>
        by_cases hb : r.blocked.getD false
        · exact ⟨1, by simp [hb]⟩
        · obtain ⟨n, hn⟩ :=
            ih hrest (r.event.getD cur)
              (match r.metadata with
                | some m2 => mergeRecord md m2
                | none => md)
          exact ⟨n + 1, by simp [hb, hn]⟩

theorem inputLoop_metadata_observed (sid : String) (now : Nat)
    (model : Option String) (isRetry : Option Bool) :
    ∀ (l : List (InterceptorConfig Msg Ev Val)) (cur : Msg)
      (md : RecordMap Val),
      (inputLoop sid now model isRetry l cur md).trace.map
          (fun e => e.ctx.metadata) =
        specObservedMetadata md
          ((inputLoop sid now model isRetry l cur md).trace.map
            (fun e => e.outcome)) := by
  intro l
  induction l with
  | nil =>
    intro cur md
    simp [inputLoop, specObservedMetadata]
  | cons c rest ih =>
    intro cur md
    simp only [inputLoop]
    cases hOn : c.onInput with
    | none => exact ih cur md
    | some f =>
      simp only [hOn]
      cases hOut : f ⟨cur, isRetry⟩ ⟨sid, now, model, md⟩ with
      | throws e =>
        simp only [List.map_cons, specObservedMetadata, specMetadataStep]
        rw [ih cur md]
      | voidResult =>
        simp only [List.map_cons, specObservedMetadata, specMetadataStep]
        rw [ih cur md]
      | ok r =>
        by_cases hb : r.blocked.getD false
        · simp [hb, specObservedMetadata, specMetadataStep]
        · simp only [hb, Bool.false_eq_true, if_false, List.map_cons,
            specObservedMetadata, specMetadataStep]
          rw [ih]

theorem outputLoop_metadata_observed (sid : String) (now : Nat)
    (model : Option String) :
    ∀ (l : List (InterceptorConfig Msg Ev Val)) (cur : Ev)
      (md : RecordMap Val),
      (outputLoop sid now model l cur md).trace.map
          (fun e => e.ctx.metadata) =
        specObservedMetadataOut md
          ((outputLoop sid now model l cur md).trace.map
            (fun e => e.outcome)) := by
  intro l
  induction l with
  | nil =>
    intro cur md
    simp [outputLoop, specObservedMetadataOut]
  | cons c rest ih =>
    intro cur md
    simp only [outputLoop]
    cases hOn : c.onOutput with
    | none => exact ih cur md
    | some f =>
      simp only [hOn]
      cases hOut : f ⟨cur⟩ ⟨sid, now, model, md⟩ with
      | throws e =>
        simp only [List.map_cons, specObservedMetadataOut, specMetadataStepOut]
        rw [ih cur md]
      | voidResult =>
        simp only [List.map_cons, specObservedMetadataOut, specMetadataStepOut]
        rw [ih cur md]
      | ok r =>
        by_cases hb : r.blocked.getD false
        · simp [hb, specObservedMetadataOut, specMetadataStepOut]
        · simp only [hb, Bool.false_eq_true, if_false, List.map_cons,
            specObservedMetadataOut, specMetadataStepOut]
          rw [ih]

theorem inputLoopFx_spec (sid : String) (now : Nat) (model : Option String)
    (isRetry : Option Bool)
    (fx : String → List (String × InterceptorConfig Msg Ev Val) →
      List (String × InterceptorConfig Msg Ev Val)) :
    ∀ (l : List (InterceptorConfig Msg Ev Val)) (cur : Msg)
      (md : RecordMap Val)
      (reg : List (String × InterceptorConfig Msg Ev Val)),
      inputLoopFx sid now model isRetry fx l cur md reg =
        (inputLoop sid now model isRetry l cur md,
         List.foldl (fun r i => fx i r) reg
           ((inputLoop sid now model isRetry l cur md).trace.map
             (fun e => e.id))) := by
  intro l
  induction l with
  | nil =>
    intro cur md reg
    simp [inputLoopFx, inputLoop]
  | cons c rest ih =>
    intro cur md reg
    simp only [inputLoopFx, inputLoop]
    cases hOn : c.onInput with
    | none => exact ih cur md reg
    | some f =>
      simp only [hOn]
      cases hOut : f ⟨cur, isRetry⟩ ⟨sid, now, model, md⟩ with
      | throws e =>
        rw [ih cur md (fx c.id reg)]
        simp
      | voidResult =>
        rw [ih cur md (fx c.id reg)]
        simp
      | ok r =>
        by_cases hb : r.blocked.getD false
        · simp [hb]
        · simp only [hb, Bool.false_eq_true, if_false]
          rw [ih]
          simp

theorem outputLoopFx_spec (sid : String) (now : Nat) (model : Option String)
    (fx : String → List (String × InterceptorConfig Msg Ev Val) →
      List (String × InterceptorConfig Msg Ev Val)) :
    ∀ (l : List (InterceptorConfig Msg Ev Val)) (cur : Ev)
      (md : RecordMap Val)
      (reg : List (String × InterceptorConfig Msg Ev Val)),
      outputLoopFx sid now model fx l cur md reg =
        (outputLoop sid now model l cur md,
         List.foldl (fun r i => fx i r) reg
           ((outputLoop sid now model l cur md).trace.map
             (fun e => e.id))) := by
  intro l
  induction l with
  | nil =>
    intro cur md reg
    simp [outputLoopFx, outputLoop]
  | cons c rest ih =>
    intro cur md reg
    simp only [outputLoopFx, outputLoop]
    cases hOn : c.onOutput with
    | none => exact ih cur md reg
    | some f =>
      simp only [hOn]
      cases hOut : f ⟨cur⟩ ⟨sid, now, model, md⟩ with
      | throws e =>
        rw [ih cur md (fx c.id reg)]
        simp
      | voidResult =>
        rw [ih cur md (fx c.id reg)]
        simp
      | ok r =>
        by_cases hb : r.blocked.getD false
        · simp [hb]
        · simp only [hb, Bool.false_eq_true, if_false]
          rw [ih]
          simp

/-!
Claim theorems.
-/

/-- Claim C5: with handler A (priority 10, prepending "A:") and handler B
(priority 1, prepending "B:") registered, the input pipeline on "hi"
returns message "B:A:hi", unblocked (with no block reason), having
invoked A strictly before B. -/
theorem inputPipeline_concrete_scenario :
    (executeInputInterceptors exManagerAB "hi" none none 0).result =
      ⟨"B:A:hi", false, none⟩ ∧
    (executeInputInterceptors exManagerAB "hi" none none 0).trace.map
      (fun e => e.id) = ["a", "b"] :=
  ⟨rfl, rfl⟩

/-- Claim C7: for every registration `r`, `register r` followed by
`get r.id` returns exactly `r` (last-write-wins, also when the id
already existed); `register` always succeeds and only emits debug
diagnostics — one extra "replacing" line when the id existed. -/
theorem register_get_roundtrip (mgr : InterceptorManager Msg Ev Val)
    (r : InterceptorConfig Msg Ev Val) :
    get (register mgr r).1 r.id = some r ∧
    (register mgr r).2 =
      (if mapHas mgr.interceptors r.id then
        [Diagnostic.dbg
          ("[InterceptorManager] Replacing existing interceptor: " ++ r.id),
         Diagnostic.dbg
          ("[InterceptorManager] Registered interceptor: " ++ r.id ++
            " (" ++ r.name ++ ")")]
      else
        [Diagnostic.dbg
          ("[InterceptorManager] Registered interceptor: " ++ r.id ++
            " (" ++ r.name ++ ")")]) ∧
    (register mgr r).2.all (fun d => d.severity == Severity.debug) = true := by
  refine ⟨mapGet_mapSet_self mgr.interceptors r.id r, ?_, ?_⟩
  · unfold register
    by_cases hc : mapHas mgr.interceptors r.id
    · simp [hc]
    · simp [hc]
  · unfold register
    by_cases hc : mapHas mgr.interceptors r.id
    · simp [hc, Diagnostic.severity]
    · simp [hc, Diagnostic.severity]

/-- Claim C9: `getAll` hands back a fresh snapshot array holding all
current registrations; overwriting that array (any adding, removing or
reordering of its elements is such an overwrite) changes only the heap,
never the registry: `get`, `getAll` and a later `getAll` allocation all
still see the original registry contents. -/
theorem getAll_snapshot_frame (mgr : InterceptorManager Msg Ev Val)
    (h : JSHeap Msg Ev Val) (v : List (InterceptorConfig Msg Ev Val))
    (i : String) :
    readArr (getAllOp mgr h).2.1 (getAllOp mgr h).1 = getAll mgr ∧
    (getAllOp mgr h).2.2 = mgr ∧
    readArr (writeArr (getAllOp mgr h).2.1 (getAllOp mgr h).1 v)
        (getAllOp mgr h).1 = v ∧
    get (getAllOp mgr h).2.2 i = get mgr i ∧
    getAll (getAllOp mgr h).2.2 = getAll mgr ∧
    (let h2 := writeArr (getAllOp mgr h).2.1 (getAllOp mgr h).1 v
     let again := getAllOp (getAllOp mgr h).2.2 h2
     readArr again.2.1 again.1 = getAll mgr) := by
  refine ⟨?_, rfl, ?_, rfl, rfl, ?_⟩
  · simp [getAllOp, allocArr, readArr, getAll, get?_append_singleton_length]
  · simp [getAllOp, allocArr, readArr, writeArr,
      set_append_singleton_length, get?_append_singleton_length]
  · simp only [getAllOp, allocArr, readArr, writeArr, getAll,
      set_append_singleton_length, get?_append_singleton_length,
      Option.getD_some]

/-- Claim C10: an input-pipeline result carries a block reason only when
it is blocked (a run that completes unblocked has `blockReason = none`),
and an output-pipeline result consists of exactly an event and a blocked
flag — the shape has no block-reason field at all. -/
theorem blockReason_only_when_blocked :
    (∀ (Msg Ev Val : Type) (mgr : InterceptorManager Msg Ev Val)
      (message : Msg) (model : Option String) (isRetry : Option Bool)
      (now : Nat),
      (executeInputInterceptors mgr message model isRetry
          now).result.blockReason.isSome = true →
        (executeInputInterceptors mgr message model isRetry
          now).result.blocked = true) ∧
    (∀ (Ev : Type) (res : OutputPipelineResult Ev),
      res = ⟨res.event, res.blocked⟩) := by
  constructor
  · intro Msg Ev Val mgr message model isRetry now h
    unfold executeInputInterceptors at h ⊢
    by_cases hc : (getSortedInputInterceptors mgr).length == 0
    · simp [hc] at h
    · simp only [hc, if_false] at h ⊢
      exact inputLoop_reason_blocked _ _ _ _ _ _ _ h
  · intro Ev res
    cases res
    rfl

/-- Closed witness for the blocked-implies-reason direction of
`blockReason_only_when_blocked` on a concrete blocking run. -/
theorem blockReason_only_when_blocked_witness :
    (executeInputInterceptors exManagerBlock "m" none none
      0).result.blocked = true :=
  blockReason_only_when_blocked.1 String String String exManagerBlock "m"
    none none 0 (by rfl)

/-- Claim C1: when a handler's result has blocked true, the run stops at
that handler and returns blocked true together with the message/event as
it stood before that handler's result was applied — the blocking
handler's own replacement field is discarded — and no later handler is
invoked; for input the returned blockReason is the blocking result's
blockReason. -/
theorem block_short_circuit :
    (∀ (Msg Ev Val : Type) (sid : String) (now : Nat)
       (model : Option String) (isRetry : Option Bool)
       (c : InterceptorConfig Msg Ev Val)
       (rest : List (InterceptorConfig Msg Ev Val)) (cur : Msg)
       (md : RecordMap Val) (f : InputInterceptorFn Msg Val)
       (r : InputInterceptorResult Msg Val),
       c.onInput = some f →
       f ⟨cur, isRetry⟩ ⟨sid, now, model, md⟩ = .ok r →
       r.blocked.getD false = true →
       inputLoop sid now model isRetry (c :: rest) cur md =
         ⟨⟨cur, true, r.blockReason⟩,
          [Diagnostic.dbg
            ("[InterceptorManager] Executing input interceptor: " ++ c.id),
           Diagnostic.dbg
            ("[InterceptorManager] Input blocked by interceptor: " ++ c.id)],
          [⟨c.id, ⟨sid, now, model, md⟩, .ok r⟩]⟩) ∧
    (∀ (Msg Ev Val : Type) (sid : String) (now : Nat)
       (model : Option String) (c : InterceptorConfig Msg Ev Val)
       (rest : List (InterceptorConfig Msg Ev Val)) (cur : Ev)
       (md : RecordMap Val) (f : OutputInterceptorFn Ev Val)
       (r : OutputInterceptorResult Ev Val),
       c.onOutput = some f →
       f ⟨cur⟩ ⟨sid, now, model, md⟩ = .ok r →
       r.blocked.getD false = true →
       @outputLoop Msg Ev Val sid now model (c :: rest) cur md =
         ⟨⟨cur, true⟩,
          [Diagnostic.dbg
            ("[InterceptorManager] Executing output interceptor: " ++ c.id),
           Diagnostic.dbg
            ("[InterceptorManager] Output blocked by interceptor: " ++ c.id)],
          [⟨c.id, ⟨sid, now, model, md⟩, .ok r⟩]⟩) := by
  constructor
  · intro Msg Ev Val sid now model isRetry c rest cur md f r hOn hOut hb
    simp [inputLoop, hOn, hOut, hb]
  · intro Msg Ev Val sid now model c rest cur md f r hOn hOut hb
    simp [outputLoop, hOn, hOut, hb]

/-- Closed witness for `block_short_circuit`: a blocking input handler
(that also attempts the replacement "replaced") and a blocking output
handler, each followed by further registrations that are never
invoked. -/
theorem block_short_circuit_witness :
    inputLoop "s" 0 none none [exBlockConfig, exConfigB] "m" [] =
      ⟨⟨"m", true, some "nope"⟩,
       [Diagnostic.dbg
          ("[InterceptorManager] Executing input interceptor: " ++ "blk"),
        Diagnostic.dbg
          ("[InterceptorManager] Input blocked by interceptor: " ++ "blk")],
       [⟨"blk", ⟨"s", 0, none, []⟩, .ok exBlockInputRes⟩]⟩ ∧
    @outputLoop String String String "s" 0 none [exBlockOutConfig, exConfigB]
        "e" [] =
      ⟨⟨"e", true⟩,
       [Diagnostic.dbg
          ("[InterceptorManager] Executing output interceptor: " ++ "oblk"),
        Diagnostic.dbg
          ("[InterceptorManager] Output blocked by interceptor: " ++ "oblk")],
       [⟨"oblk", ⟨"s", 0, none, []⟩, .ok exBlockOutputRes⟩]⟩ :=
  ⟨block_short_circuit.1 String String String "s" 0 none none exBlockConfig
      [exConfigB] "m" [] exBlockInputFn exBlockInputRes rfl rfl rfl,
   block_short_circuit.2 String String String "s" 0 none exBlockOutConfig
      [exConfigB] "e" [] exBlockOutputFn exBlockOutputRes rfl rfl rfl⟩

/-- Claim C2: a handler invocation that throws records an error-severity
diagnostic carrying the handler's id and the error, leaves the running
message/event and metadata unchanged, and all later handlers still
execute; the loops (and so the entry points, which are total functions,
as are register/unregister/getAll/clear) raise nothing to the caller. -/
theorem throwing_handler_isolated :
    (∀ (Msg Ev Val : Type) (sid : String) (now : Nat)
       (model : Option String) (isRetry : Option Bool)
       (c : InterceptorConfig Msg Ev Val)
       (rest : List (InterceptorConfig Msg Ev Val)) (cur : Msg)
       (md : RecordMap Val) (f : InputInterceptorFn Msg Val) (e : String),
       c.onInput = some f →
       f ⟨cur, isRetry⟩ ⟨sid, now, model, md⟩ = .throws e →
       inputLoop sid now model isRetry (c :: rest) cur md =
         ⟨(inputLoop sid now model isRetry rest cur md).result,
          Diagnostic.dbg
            ("[InterceptorManager] Executing input interceptor: " ++ c.id) ::
            Diagnostic.err
              ("[InterceptorManager] Error in input interceptor " ++
                c.id ++ ":") e ::
            (inputLoop sid now model isRetry rest cur md).log,
          ⟨c.id, ⟨sid, now, model, md⟩, .throws e⟩ ::
            (inputLoop sid now model isRetry rest cur md).trace⟩ ∧
       (Diagnostic.err
          ("[InterceptorManager] Error in input interceptor " ++
            c.id ++ ":") e).severity = Severity.error) ∧
    (∀ (Msg Ev Val : Type) (sid : String) (now : Nat)
       (model : Option String) (c : InterceptorConfig Msg Ev Val)
       (rest : List (InterceptorConfig Msg Ev Val)) (cur : Ev)
       (md : RecordMap Val) (f : OutputInterceptorFn Ev Val) (e : String),
       c.onOutput = some f →
       f ⟨cur⟩ ⟨sid, now, model, md⟩ = .throws e →
       @outputLoop Msg Ev Val sid now model (c :: rest) cur md =
         ⟨(@outputLoop Msg Ev Val sid now model rest cur md).result,
          Diagnostic.dbg
            ("[InterceptorManager] Executing output interceptor: " ++ c.id) ::
            Diagnostic.err
              ("[InterceptorManager] Error in output interceptor " ++
                c.id ++ ":") e ::
            (@outputLoop Msg Ev Val sid now model rest cur md).log,
          ⟨c.id, ⟨sid, now, model, md⟩, .throws e⟩ ::
            (@outputLoop Msg Ev Val sid now model rest cur md).trace⟩ ∧
       (Diagnostic.err
          ("[InterceptorManager] Error in output interceptor " ++
            c.id ++ ":") e).severity = Severity.error) := by
  constructor
  · intro Msg Ev Val sid now model isRetry c rest cur md f e hOn hOut
    refine ⟨?_, rfl⟩
    simp [inputLoop, hOn, hOut]
  · intro Msg Ev Val sid now model c rest cur md f e hOn hOut
    refine ⟨?_, rfl⟩
    simp [outputLoop, hOn, hOut]

/-- Closed witness for `throwing_handler_isolated`: a throwing input
handler followed by handler B, whose replacement "B:m" still lands in
the final result; and a throwing output handler. -/
theorem throwing_handler_isolated_witness :
    (inputLoop "s" 0 none none [exThrowConfig, exConfigB] "m" [] =
       ⟨(inputLoop "s" 0 none none [exConfigB] "m" []).result,
        Diagnostic.dbg
          ("[InterceptorManager] Executing input interceptor: " ++ "thr") ::
          Diagnostic.err
            ("[InterceptorManager] Error in input interceptor " ++
              "thr" ++ ":") "Test error" ::
          (inputLoop "s" 0 none none [exConfigB] "m" []).log,
        ⟨"thr", ⟨"s", 0, none, []⟩, .throws "Test error"⟩ ::
          (inputLoop "s" 0 none none [exConfigB] "m" []).trace⟩ ∧
     (Diagnostic.err
        ("[InterceptorManager] Error in input interceptor " ++
          "thr" ++ ":") "Test error").severity = Severity.error) ∧
    ((@inputLoop String String String "s" 0 none none [exThrowConfig, exConfigB]
        "m" []).result = ⟨"B:m", false, none⟩) ∧
    (@outputLoop String String String "s" 0 none [exThrowOutConfig] "e" [] =
       ⟨(@outputLoop String String String "s" 0 none ([] :
            List (InterceptorConfig String String String)) "e" []).result,
        Diagnostic.dbg
          ("[InterceptorManager] Executing output interceptor: " ++ "othr") ::
          Diagnostic.err
            ("[InterceptorManager] Error in output interceptor " ++
              "othr" ++ ":") "Test error" ::
          (@outputLoop String String String "s" 0 none ([] :
            List (InterceptorConfig String String String)) "e" []).log,
        ⟨"othr", ⟨"s", 0, none, []⟩, .throws "Test error"⟩ ::
          (@outputLoop String String String "s" 0 none ([] :
            List (InterceptorConfig String String String)) "e" []).trace⟩ ∧
     (Diagnostic.err
        ("[InterceptorManager] Error in output interceptor " ++
          "othr" ++ ":") "Test error").severity = Severity.error) :=
  ⟨throwing_handler_isolated.1 String String String "s" 0 none none
      exThrowConfig [exConfigB] "m" [] exThrowInputFn "Test error" rfl rfl,
   rfl,
   throwing_handler_isolated.2 String String String "s" 0 none
      exThrowOutConfig [] "e" [] exThrowOutputFn "Test error" rfl rfl⟩

/-- Claim C3: the metadata of every run starts empty; a result's
metadata is merged in with new keys overwriting same-named keys and all
other keys persisting; and each invoked handler observes exactly the
cumulative union of all prior invocations' contributions of that run
(so nothing from any other run). -/
theorem metadata_merged_forward :
    (∀ (Val : Type) (a b : RecordMap Val) (k : String),
      lookupR (mergeRecord a b) k =
        (match lookupR b k with
         | some v => some v
         | none => lookupR a k)) ∧
    (∀ (Msg Ev Val : Type) (mgr : InterceptorManager Msg Ev Val)
       (message : Msg) (model : Option String) (isRetry : Option Bool)
       (now : Nat),
      (executeInputInterceptors mgr message model isRetry now).trace.map
          (fun e => e.ctx.metadata) =
        specObservedMetadata []
          ((executeInputInterceptors mgr message model isRetry
            now).trace.map (fun e => e.outcome))) ∧
    (∀ (Msg Ev Val : Type) (mgr : InterceptorManager Msg Ev Val)
       (event : Ev) (model : Option String) (now : Nat),
      (executeOutputInterceptors mgr event model now).trace.map
          (fun e => e.ctx.metadata) =
        specObservedMetadataOut []
          ((executeOutputInterceptors mgr event model now).trace.map
            (fun e => e.outcome))) := by
  refine ⟨fun Val a b k => lookupR_mergeRecord a b k, ?_, ?_⟩
  · intro Msg Ev Val mgr message model isRetry now
    unfold executeInputInterceptors
    by_cases hc : (getSortedInputInterceptors mgr).length == 0
    · simp [hc, specObservedMetadata]
    · simp only [hc, Bool.false_eq_true, if_false]
      exact inputLoop_metadata_observed _ _ _ _ _ message []
  · intro Msg Ev Val mgr event model now
    unfold executeOutputInterceptors
    by_cases hc : (getSortedOutputInterceptors mgr).length == 0
    · simp [hc, specObservedMetadataOut]
    · simp only [hc, Bool.false_eq_true, if_false]
      exact outputLoop_metadata_observed _ _ _ _ event []

/-- Claim C4: selected handlers run in descending priority order
(missing priority counts as 0, which `priorityOf` applies), the sort is
a stable tie-break (elements of any fixed priority keep their original
relative order), every run's invocation sequence is a prefix of the
sorted selection, and concretely the priority-10 handler "a" executes
strictly before the priority-1 handler "b". -/
theorem priority_descending_stable :
    (∀ (Msg Ev Val : Type) (mgr : InterceptorManager Msg Ev Val),
      (getSortedInputInterceptors mgr).Pairwise
          (fun a b => priorityOf b ≤ priorityOf a) ∧
      (getSortedOutputInterceptors mgr).Pairwise
          (fun a b => priorityOf b ≤ priorityOf a)) ∧
    (∀ (Msg Ev Val : Type) (p : Int)
       (l : List (InterceptorConfig Msg Ev Val)),
      (sortByPriorityDesc l).filter (fun d => priorityOf d == p) =
        l.filter (fun d => priorityOf d == p)) ∧
    (∀ (Msg Ev Val : Type) (mgr : InterceptorManager Msg Ev Val)
       (message : Msg) (model : Option String) (isRetry : Option Bool)
       (now : Nat),
      ∃ n, (executeInputInterceptors mgr message model isRetry
          now).trace.map (fun e => e.id) =
        ((getSortedInputInterceptors mgr).map (fun c => c.id)).take n) ∧
    (∀ (Msg Ev Val : Type) (mgr : InterceptorManager Msg Ev Val)
       (event : Ev) (model : Option String) (now : Nat),
      ∃ n, (executeOutputInterceptors mgr event model now).trace.map
          (fun e => e.id) =
        ((getSortedOutputInterceptors mgr).map (fun c => c.id)).take n) ∧
    (executeInputInterceptors exManagerAB "x" none none 0).trace.map
        (fun e => e.id) = ["a", "b"] := by
  refine ⟨?_, ?_, ?_, ?_, rfl⟩
  · intro Msg Ev Val mgr
    exact ⟨sortByPriorityDesc_pairwise _, sortByPriorityDesc_pairwise _⟩
  · intro Msg Ev Val p l
    exact sortByPriorityDesc_stable p l
  · intro Msg Ev Val mgr message model isRetry now
    unfold executeInputInterceptors
    by_cases hc : (getSortedInputInterceptors mgr).length == 0
    · exact ⟨0, by simp [hc]⟩
    · simp only [hc, Bool.false_eq_true, if_false]
      exact inputLoop_trace_take _ _ _ _ _
        (getSortedInput_onInput mgr) message []
  · intro Msg Ev Val mgr event model now
    unfold executeOutputInterceptors
    by_cases hc : (getSortedOutputInterceptors mgr).length == 0
    · exact ⟨0, by simp [hc]⟩
    · simp only [hc, Bool.false_eq_true, if_false]
      exact outputLoop_trace_take _ _ _ _
        (getSortedOutput_onOutput mgr) event []

/-- Claim C6: when the selected subset for a direction is empty the
pipeline returns the original message/event unmodified with blocked
false, emits nothing and invokes zero handlers; and each of the three
causes — empty registry, all registrations disabled, none defining that
direction's handler — makes the subset empty. -/
theorem empty_selection_identity :
    (∀ (Msg Ev Val : Type) (mgr : InterceptorManager Msg Ev Val)
       (message : Msg) (model : Option String) (isRetry : Option Bool)
       (now : Nat),
      getSortedInputInterceptors mgr = [] →
      executeInputInterceptors mgr message model isRetry now =
        ⟨⟨message, false, none⟩, [], []⟩) ∧
    (∀ (Msg Ev Val : Type) (mgr : InterceptorManager Msg Ev Val)
       (event : Ev) (model : Option String) (now : Nat),
      getSortedOutputInterceptors mgr = [] →
      executeOutputInterceptors mgr event model now =
        ⟨⟨event, false⟩, [], []⟩) ∧
    (∀ (Msg Ev Val : Type) (mgr : InterceptorManager Msg Ev Val),
      mgr.interceptors = [] →
      getSortedInputInterceptors mgr = [] ∧
      getSortedOutputInterceptors mgr = []) ∧
    (∀ (Msg Ev Val : Type) (mgr : InterceptorManager Msg Ev Val),
      (∀ pr ∈ mgr.interceptors, pr.2.enabled = some false) →
      getSortedInputInterceptors mgr = [] ∧
      getSortedOutputInterceptors mgr = []) ∧
    (∀ (Msg Ev Val : Type) (mgr : InterceptorManager Msg Ev Val),
      (∀ pr ∈ mgr.interceptors, pr.2.onInput = none) →
      getSortedInputInterceptors mgr = []) ∧
    (∀ (Msg Ev Val : Type) (mgr : InterceptorManager Msg Ev Val),
      (∀ pr ∈ mgr.interceptors, pr.2.onOutput = none) →
      getSortedOutputInterceptors mgr = []) := by
  refine ⟨?_, ?_, ?_, ?_, ?_, ?_⟩
  · intro Msg Ev Val mgr message model isRetry now h
    unfold executeInputInterceptors
    rw [h]
    simp
  · intro Msg Ev Val mgr event model now h
    unfold executeOutputInterceptors
    rw [h]
    simp
  · intro Msg Ev Val mgr h
    constructor
    · unfold getSortedInputInterceptors mapValues
      rw [h]
      rfl
    · unfold getSortedOutputInterceptors mapValues
      rw [h]
      rfl
  · intro Msg Ev Val mgr h
    constructor
    · unfold getSortedInputInterceptors
      have hf : (mapValues mgr.interceptors).filter
          (fun i => i.enabled != some false && i.onInput.isSome) = [] := by
        rw [List.filter_eq_nil_iff]
        intro c hc
        rcases List.mem_map.mp hc with ⟨pr, hpr, rfl⟩
        simp [h pr hpr]
      rw [hf]
      rfl
    · unfold getSortedOutputInterceptors
      have hf : (mapValues mgr.interceptors).filter
          (fun i => i.enabled != some false && i.onOutput.isSome) = [] := by
        rw [List.filter_eq_nil_iff]
        intro c hc
        rcases List.mem_map.mp hc with ⟨pr, hpr, rfl⟩
        simp [h pr hpr]
      rw [hf]
      rfl
  · intro Msg Ev Val mgr h
    unfold getSortedInputInterceptors
    have hf : (mapValues mgr.interceptors).filter
        (fun i => i.enabled != some false && i.onInput.isSome) = [] := by
      rw [List.filter_eq_nil_iff]
      intro c hc
      rcases List.mem_map.mp hc with ⟨pr, hpr, rfl⟩
      simp [h pr hpr]
    rw [hf]
    rfl
  · intro Msg Ev Val mgr h
    unfold getSortedOutputInterceptors
    have hf : (mapValues mgr.interceptors).filter
        (fun i => i.enabled != some false && i.onOutput.isSome) = [] := by
      rw [List.filter_eq_nil_iff]
      intro c hc
      rcases List.mem_map.mp hc with ⟨pr, hpr, rfl⟩
      simp [h pr hpr]
    rw [hf]
    rfl

/-- Closed witness for `empty_selection_identity`: the empty manager,
the all-disabled manager, and the managers lacking one direction's
handlers. -/
theorem empty_selection_identity_witness :
    executeInputInterceptors exManager0 "m" none none 0 =
      ⟨⟨"m", false, none⟩, [], []⟩ ∧
    executeOutputInterceptors exManager0 "e" none 0 =
      ⟨⟨"e", false⟩, [], []⟩ ∧
    (getSortedInputInterceptors exManager0 = [] ∧
      getSortedOutputInterceptors exManager0 = []) ∧
    (getSortedInputInterceptors exManagerDisabled = [] ∧
      getSortedOutputInterceptors exManagerDisabled = []) ∧
    getSortedInputInterceptors exManagerOutOnly = [] ∧
    getSortedOutputInterceptors exManagerInOnly = [] :=
  ⟨empty_selection_identity.1 String String String exManager0 "m" none
      none 0 rfl,
   empty_selection_identity.2.1 String String String exManager0 "e" none
      0 rfl,
   empty_selection_identity.2.2.1 String String String exManager0 rfl,
   empty_selection_identity.2.2.2.1 String String String exManagerDisabled
     (by
       intro pr hpr
       simp only [exManagerDisabled] at hpr
       rw [List.mem_singleton] at hpr
       subst hpr
       rfl),
   empty_selection_identity.2.2.2.2.1 String String String exManagerOutOnly
     (by
       intro pr hpr
       simp only [exManagerOutOnly] at hpr
       rw [List.mem_singleton] at hpr
       subst hpr
       rfl),
   empty_selection_identity.2.2.2.2.2 String String String exManagerInOnly
     (by
       intro pr hpr
       simp only [exManagerInOnly] at hpr
       rw [List.mem_singleton] at hpr
       subst hpr
       rfl)⟩

/-- Claim C8: every pipeline run, input or output, iterates only over
the snapshot selected before its first invocation: whatever registry
mutations the handlers perform mid-run (`fx`), the run's result,
diagnostics and invocation trace equal those of the mutation-free run,
and the registry afterwards is the initial registry with the invoked
handlers' mutations folded in — visible only to subsequent runs. -/
theorem midrun_mutation_snapshot :
    (∀ (Msg Ev Val : Type) (mgr : InterceptorManager Msg Ev Val)
       (message : Msg) (model : Option String) (isRetry : Option Bool)
       (now : Nat)
       (fx : String → List (String × InterceptorConfig Msg Ev Val) →
         List (String × InterceptorConfig Msg Ev Val)),
      executeInputInterceptorsFx mgr message model isRetry now fx =
        (executeInputInterceptors mgr message model isRetry now,
         List.foldl (fun r i => fx i r) mgr.interceptors
           ((executeInputInterceptors mgr message model isRetry
             now).trace.map (fun e => e.id)))) ∧
    (∀ (Msg Ev Val : Type) (mgr : InterceptorManager Msg Ev Val)
       (event : Ev) (model : Option String) (now : Nat)
       (fx : String → List (String × InterceptorConfig Msg Ev Val) →
         List (String × InterceptorConfig Msg Ev Val)),
      executeOutputInterceptorsFx mgr event model now fx =
        (executeOutputInterceptors mgr event model now,
         List.foldl (fun r i => fx i r) mgr.interceptors
           ((executeOutputInterceptors mgr event model now).trace.map
             (fun e => e.id)))) := by
  constructor
  · intro Msg Ev Val mgr message model isRetry now fx
    unfold executeInputInterceptorsFx executeInputInterceptors
    by_cases hc : (getSortedInputInterceptors mgr).length == 0
    · simp [hc]
    · simp only [hc, Bool.false_eq_true, if_false]
      exact inputLoopFx_spec _ _ _ _ fx _ message [] mgr.interceptors
  · intro Msg Ev Val mgr event model now fx
    unfold executeOutputInterceptorsFx executeOutputInterceptors
    by_cases hc : (getSortedOutputInterceptors mgr).length == 0
    · simp [hc]
    · simp only [hc, Bool.false_eq_true, if_false]
      exact outputLoopFx_spec _ _ _ fx _ event [] mgr.interceptors

end Interceptor
